import Mathlib

/-!
Verification development for the dynamic schema-loader core
(`src/serialization/schema-loader.ts`): the schema registry, the wire-type
classifier, field-descriptor extraction, accessor synthesis and the
plain-object projection.

The TypeScript source is shallowly embedded: pure methods become Lean
functions with the source's names; the registry's mutable `Map` state is
passed explicitly as an association list with JS `Map.set` semantics
(overwrite-in-place keeps the original position, otherwise append).
Machine integers (the 64-bit schema ids, byte values) are `Nat`/`Int` with
explicit `% 2 ^ w` where wrap-around matters.

Code of the repository that the loader calls but that is not part of the
source slice (the `Type` tag constants of `capnp/schema`, the wire-layout
`utils` primitives, `ObjectSize`) is modelled from the spec and marked as
such in the corresponding doc comments.
-/

namespace SchemaLoader

/-! ### Wire-type tags

Modelled from the spec: the closed wire-type set of `capnp/schema`'s `Type`
union (section 3 of the spec), with the canonical numbering of the
discriminants `Type.VOID .. Type.ANY_POINTER`. Only equality tests against
these constants occur in the loader. -/

def typeVoid : Nat := 0
def typeBool : Nat := 1
def typeInt8 : Nat := 2
def typeInt16 : Nat := 3
def typeInt32 : Nat := 4
def typeInt64 : Nat := 5
def typeUint8 : Nat := 6
def typeUint16 : Nat := 7
def typeUint32 : Nat := 8
def typeUint64 : Nat := 9
def typeFloat32 : Nat := 10
def typeFloat64 : Nat := 11
def typeText : Nat := 12
def typeData : Nat := 13
def typeList : Nat := 14
def typeEnum : Nat := 15
def typeStruct : Nat := 16
def typeInterface : Nat := 17
def typeAnyPointer : Nat := 18

/-- The list of all discriminants of the closed wire-type set. A tag outside
this list is an "unknown/future" tag in the sense of the spec. -/
def knownTags : List Nat :=
  [typeVoid, typeBool, typeInt8, typeInt16, typeInt32, typeInt64,
   typeUint8, typeUint16, typeUint32, typeUint64, typeFloat32, typeFloat64,
   typeText, typeData, typeList, typeEnum, typeStruct, typeInterface,
   typeAnyPointer]

/-! ### Input schema shape

Modelled after the `Node` / `Field` / `Type` accessors the loader reads
(`node.id`, `node.displayName`, `node._isStruct`, `node.struct`,
`field._isSlot`, `field.slot.offset`, `field.slot.type`,
`type.which()`, `type.struct.typeId`, `type.list.elementType.which()`).
The union payloads are flattened to exactly the projections the loader
uses. -/

/-- The slice of a `Type` union value read by the loader: its discriminant,
the nested struct type id (read only when the discriminant is `STRUCT`) and
the element type's discriminant (read only when it is `LIST`). -/
structure WireType where
  which : Nat
  structTypeId : Nat
  listElemWhich : Nat
deriving DecidableEq

/-- A field's `slot` payload: wire offset and wire type. -/
structure Slot where
  offset : Nat
  type : WireType
deriving DecidableEq

/-- A `Field` of a struct node: name, the slot/group discriminant
(`_isSlot`), and the slot payload (read only when `_isSlot`). -/
structure Field where
  name : String
  isSlot : Bool
  slot : Slot
deriving DecidableEq

/-- A struct node's payload: data-section word count, pointer-section slot
count and the ordered field list. -/
structure StructNodeInfo where
  dataWordCount : Nat
  pointerCount : Nat
  fields : List Field
deriving DecidableEq

/-- A schema `Node`: 64-bit id, fully qualified display name, the struct
discriminant (`_isStruct`) and the struct payload (read only when
`_isStruct`). -/
structure Node where
  id : Nat
  displayName : String
  isStruct : Bool
  struct : StructNodeInfo
deriving DecidableEq

/-- Modelled from the spec: `ObjectSize` carries the {data-bytes,
pointer-count} footprint; the loader constructs it as
`new ObjectSize(dataWordCount * 8, pointerCount)`. -/
structure ObjectSize where
  dataByteLength : Nat
  pointerLength : Nat
deriving DecidableEq

/-! ### The loader's own field descriptor (`FieldInfo`) -/

/-- `FieldInfo`, the loader's derived per-field descriptor. The two
optional members are populated exactly when the corresponding facet holds,
as in the source. -/
structure FieldInfo where
  name : String
  offset : Nat
  type : String
  isPointer : Bool
  isPrimitive : Bool
  isText : Bool
  isData : Bool
  isList : Bool
  isStruct : Bool
  structTypeId : Option Nat
  listElementType : Option String
deriving DecidableEq

/-- `SchemaLoader.isPointerType`. -/
def isPointerType (typeWhich : Nat) : Bool :=
  typeWhich == typeText || typeWhich == typeData || typeWhich == typeList ||
  typeWhich == typeStruct || typeWhich == typeAnyPointer

/-- `SchemaLoader.isPrimitiveType`. -/
def isPrimitiveType (typeWhich : Nat) : Bool :=
  typeWhich == typeBool ||
  typeWhich == typeInt8 || typeWhich == typeInt16 || typeWhich == typeInt32 ||
  typeWhich == typeInt64 || typeWhich == typeUint8 || typeWhich == typeUint16 ||
  typeWhich == typeUint32 || typeWhich == typeUint64 ||
  typeWhich == typeFloat32 || typeWhich == typeFloat64

/-- `SchemaLoader.typeToString`: the `switch` over the type discriminant,
with the `default: return "unknown"` fallback. -/
def typeToString (typeWhich : Nat) : String :=
  if typeWhich = typeVoid then "void"
  else if typeWhich = typeBool then "bool"
  else if typeWhich = typeInt8 then "int8"
  else if typeWhich = typeInt16 then "int16"
  else if typeWhich = typeInt32 then "int32"
  else if typeWhich = typeInt64 then "int64"
  else if typeWhich = typeUint8 then "uint8"
  else if typeWhich = typeUint16 then "uint16"
  else if typeWhich = typeUint32 then "uint32"
  else if typeWhich = typeUint64 then "uint64"
  else if typeWhich = typeFloat32 then "float32"
  else if typeWhich = typeFloat64 then "float64"
  else if typeWhich = typeText then "text"
  else if typeWhich = typeData then "data"
  else if typeWhich = typeList then "list"
  else if typeWhich = typeStruct then "struct"
  else if typeWhich = typeEnum then "enum"
  else if typeWhich = typeInterface then "interface"
  else if typeWhich = typeAnyPointer then "anyPointer"
  else "unknown"

/-- The loop body of `SchemaLoader.parseFields` for a slot field: builds the
`FieldInfo`, including the conditional `structTypeId` / `listElementType`
assignments. -/
def slotFieldInfo (field : Field) : FieldInfo :=
  let slot := field.slot
  let typeWhich := slot.type.which
  { name := field.name
    offset := slot.offset
    type := typeToString typeWhich
    isPointer := isPointerType typeWhich
    isPrimitive := isPrimitiveType typeWhich
    isText := typeWhich == typeText
    isData := typeWhich == typeData
    isList := typeWhich == typeList
    isStruct := typeWhich == typeStruct
    structTypeId :=
      if typeWhich == typeStruct then some slot.type.structTypeId else none
    listElementType :=
      if typeWhich == typeList then some (typeToString slot.type.listElemWhich)
      else none }

/-- One iteration of `SchemaLoader.parseFields`: non-slot fields are
skipped (`continue`), slot fields produce a descriptor. -/
def parseField (field : Field) : Option FieldInfo :=
  if field.isSlot then some (slotFieldInfo field) else none

/-- `SchemaLoader.parseFields`: the loop over the field list in declaration
order, pushing one descriptor per slot field. -/
def parseFields (fieldsList : List Field) : List FieldInfo :=
  fieldsList.filterMap parseField

/-- The width table of `SchemaLoader.calculateByteOffset`
(`typeSizes[field.type]`). -/
def typeSizes (t : String) : Option Nat :=
  if t = "int8" then some 1 else if t = "uint8" then some 1
  else if t = "int16" then some 2 else if t = "uint16" then some 2
  else if t = "int32" then some 4 else if t = "uint32" then some 4
  else if t = "int64" then some 8 else if t = "uint64" then some 8
  else if t = "float32" then some 4 else if t = "float64" then some 8
  else none

/-- `SchemaLoader.calculateByteOffset`: bit offsets divided by 8 for bools,
otherwise wire offset times the type's byte width, defaulting to 8
(`typeSizes[field.type] || 8`). -/
def calculateByteOffset (field : FieldInfo) : Nat :=
  if field.type = "bool" then field.offset / 8
  else field.offset * ((typeSizes field.type).getD 8)

/-! ### Synthesized accessors

Each synthesized closure calls exactly one `utils` primitive at an offset
fixed at synthesis time; a closure is represented by that call. -/

/-- The `utils` call a synthesized primitive getter performs, with the
offset it closed over; `retUndefined` is the `default` branch's closure
that returns `undefined`. -/
inductive GetterDesc where
  | getBit (bit : Nat)
  | getInt8 (byteOffset : Nat)
  | getInt16 (byteOffset : Nat)
  | getInt32 (byteOffset : Nat)
  | getInt64 (byteOffset : Nat)
  | getUint8 (byteOffset : Nat)
  | getUint16 (byteOffset : Nat)
  | getUint32 (byteOffset : Nat)
  | getUint64 (byteOffset : Nat)
  | getFloat32 (byteOffset : Nat)
  | getFloat64 (byteOffset : Nat)
  | retUndefined
deriving DecidableEq

/-- The `utils` call a synthesized primitive setter performs; `noop` is the
`default` branch's empty closure. -/
inductive SetterDesc where
  | setBit (bit : Nat)
  | setInt8 (byteOffset : Nat)
  | setInt16 (byteOffset : Nat)
  | setInt32 (byteOffset : Nat)
  | setInt64 (byteOffset : Nat)
  | setUint8 (byteOffset : Nat)
  | setUint16 (byteOffset : Nat)
  | setUint32 (byteOffset : Nat)
  | setUint64 (byteOffset : Nat)
  | setFloat32 (byteOffset : Nat)
  | setFloat64 (byteOffset : Nat)
  | noop
deriving DecidableEq

/-- `SchemaLoader.createPrimitiveGetter`: a `switch` on the descriptor's
semantic type label; every non-bool case closes over the precomputed
`byteOffset`, the bool case over the raw bit offset. -/
def createPrimitiveGetter (field : FieldInfo) : GetterDesc :=
  let byteOffset := calculateByteOffset field
  if field.type = "bool" then .getBit field.offset
  else if field.type = "int8" then .getInt8 byteOffset
  else if field.type = "int16" then .getInt16 byteOffset
  else if field.type = "int32" then .getInt32 byteOffset
  else if field.type = "int64" then .getInt64 byteOffset
  else if field.type = "uint8" then .getUint8 byteOffset
  else if field.type = "uint16" then .getUint16 byteOffset
  else if field.type = "uint32" then .getUint32 byteOffset
  else if field.type = "uint64" then .getUint64 byteOffset
  else if field.type = "float32" then .getFloat32 byteOffset
  else if field.type = "float64" then .getFloat64 byteOffset
  else .retUndefined

/-- `SchemaLoader.createPrimitiveSetter`. -/
def createPrimitiveSetter (field : FieldInfo) : SetterDesc :=
  let byteOffset := calculateByteOffset field
  if field.type = "bool" then .setBit field.offset
  else if field.type = "int8" then .setInt8 byteOffset
  else if field.type = "int16" then .setInt16 byteOffset
  else if field.type = "int32" then .setInt32 byteOffset
  else if field.type = "int64" then .setInt64 byteOffset
  else if field.type = "uint8" then .setUint8 byteOffset
  else if field.type = "uint16" then .setUint16 byteOffset
  else if field.type = "uint32" then .setUint32 byteOffset
  else if field.type = "uint64" then .setUint64 byteOffset
  else if field.type = "float32" then .setFloat32 byteOffset
  else if field.type = "float64" then .setFloat64 byteOffset
  else .noop

/-- The getter installed for one field: a primitive getter, or one of the
pointer-layer calls `utils.getText` / `utils.getData` / `utils.getPointer`
at the field's pointer-slot index. The list branch, the struct branch and
the fallback branch of the source all call `utils.getPointer`. -/
inductive GetAccessor where
  | primitive (g : GetterDesc)
  | text (ptrIndex : Nat)
  | data (ptrIndex : Nat)
  | pointer (ptrIndex : Nat)
deriving DecidableEq

/-- The setter installed for one field, when one is installed at all. -/
inductive SetAccessor where
  | primitive (s : SetterDesc)
  | text (ptrIndex : Nat)
deriving DecidableEq

/-- The JS property descriptor built by `addFieldAccessors`; `set := none`
models a descriptor whose `set` member was never assigned. -/
structure PropertyDescriptor where
  get : GetAccessor
  set : Option SetAccessor
  enumerable : Bool
  configurable : Bool
deriving DecidableEq

/-- `SchemaLoader.addFieldAccessors`, the per-field descriptor-building
branch chain (the `Object.defineProperty` call is modelled separately by
`defineProperty`). -/
def addFieldAccessors (field : FieldInfo) : PropertyDescriptor :=
  if field.isPrimitive then
    { get := .primitive (createPrimitiveGetter field)
      set := some (.primitive (createPrimitiveSetter field))
      enumerable := true, configurable := true }
  else if field.isText then
    { get := .text field.offset, set := some (.text field.offset)
      enumerable := true, configurable := true }
  else if field.isData then
    { get := .data field.offset, set := none
      enumerable := true, configurable := true }
  else if field.isList then
    { get := .pointer field.offset, set := none
      enumerable := true, configurable := true }
  else if field.isStruct then
    { get := .pointer field.offset, set := none
      enumerable := true, configurable := true }
  else
    { get := .pointer field.offset, set := none
      enumerable := true, configurable := true }

/-! ### String-keyed maps and prototypes

JS `Map.set`, `Object.defineProperty` on a prototype, and plain property
assignment all share the same key semantics: an existing key is overwritten
in place (keeping its original position), a new key is appended. -/

/-- Overwrite-or-append update of a string-keyed association list. -/
def assocSet {α : Type} (m : List (String × α)) (k : String) (v : α) :
    List (String × α) :=
  match m with
  | [] => [(k, v)]
  | (k', v') :: rest =>
    if k' = k then (k, v) :: rest else (k', v') :: assocSet rest k v

/-- Exact-key lookup (JS `Map.get` / property lookup). -/
def assocGet {α : Type} (m : List (String × α)) (k : String) : Option α :=
  match m with
  | [] => none
  | (k', v') :: rest => if k' = k then some v' else assocGet rest k

/-- A dynamic struct type's prototype: its named property descriptors in
definition order. -/
abbrev Prototype : Type := List (String × PropertyDescriptor)

/-- The accessor-installation loop of `createDynamicStruct`: one
`Object.defineProperty` per parsed field, in field order. -/
def buildProto (fields : List FieldInfo) : Prototype :=
  List.foldl (fun proto f => assocSet proto f.name (addFieldAccessors f))
    [] fields

/-! ### Decimal / hex rendering of ids

`loadDynamic` keys its registry map by `id.toString()` and brands the
dynamic class with `id.toString(16)`. Rendering is fuel-based so that it
computes by `decide`/`rfl`; `decodeKey` is a proved left inverse, giving
injectivity of the decimal key. -/

/-- Little-endian digit expansion in the given base, with fuel; fuel `n`
suffices for value `n`. -/
def digitsRevB (base : Nat) : Nat → Nat → List Nat
  | _, 0 => []
  | 0, _ + 1 => []
  | fuel + 1, n + 1 => (n + 1) % base :: digitsRevB base fuel ((n + 1) / base)

/-- Value of a little-endian base-10 digit list. -/
def ofDigits10 : List Nat → Nat
  | [] => 0
  | d :: ds => d + 10 * ofDigits10 ds

/-- Decimal rendering of a schema id, as JS `id.toString()`. -/
def natKey (n : Nat) : String :=
  if n = 0 then "0"
  else String.mk (((digitsRevB 10 n n).map Nat.digitChar).reverse)

/-- Hexadecimal rendering of a schema id, as JS `id.toString(16)`. -/
def natHex (n : Nat) : String :=
  if n = 0 then "0"
  else String.mk (((digitsRevB 16 n n).map Nat.digitChar).reverse)

/-- Numeric value of a decimal digit character (inverse of
`Nat.digitChar` below 10). -/
def charVal (c : Char) : Nat := c.toNat - 48

/-- Left inverse of `natKey`. -/
def decodeKey (s : String) : Nat := ofDigits10 (s.data.reverse.map charVal)

/-! ### The registry -/

/-- The metadata record stored on the dynamic class (`_capnp`) plus the
synthesized prototype; the loader-visible identity of a `StructCtor`. -/
structure StructCtor where
  displayName : String
  idHex : String
  size : ObjectSize
  prototype : Prototype
deriving DecidableEq

/-- The `LoadedSchema` record. -/
structure LoadedSchema where
  id : Nat
  displayName : String
  size : ObjectSize
  structCtor : StructCtor
deriving DecidableEq

/-- The error kinds the registry surfaces: `loadDynamic`'s not-a-struct
failure (carrying the extracted display name and the id, as the thrown
message does) and `get`'s not-found failure. -/
inductive LoaderError where
  | notAStruct (displayName : String) (id : Nat)
  | schemaNotFound (id : Nat)
deriving DecidableEq

/-- The registry's `schemas` map: loaded schemas keyed by the decimal id
string. -/
abbrev Registry : Type := List (String × LoadedSchema)

/-- A freshly constructed registry. -/
def emptyRegistry : Registry := []

/-- `SchemaLoader.extractDisplayName`: split on `:`, take the last part,
fall back to the full name when that part is empty
(`parts[parts.length - 1] || fullName`). -/
def splitColonAux : List Char → List Char → List String
  | [], acc => [String.mk acc.reverse]
  | c :: cs, acc =>
    if c = ':' then String.mk acc.reverse :: splitColonAux cs []
    else splitColonAux cs (c :: acc)

/-- JS `fullName.split(":")`. -/
def splitColon (s : String) : List String := splitColonAux s.data []

/-- `SchemaLoader.extractDisplayName`. -/
def extractDisplayName (fullName : String) : String :=
  let parts := splitColon fullName
  let last := parts.getLastD ""
  if last = "" then fullName else last

/-- Everything after the final colon of a string (the whole string when it
has no colon): the transformation the spec describes for display names.
Stated from the spec's words, to be compared with `extractDisplayName`. -/
def afterLastColonSpec (s : String) : String :=
  String.mk ((s.data.reverse.takeWhile (fun c => c != ':')).reverse)

/-- The successful body of `loadDynamic` (everything after the struct
check): a pure function of the node. -/
def buildSchema (node : Node) : LoadedSchema :=
  let displayName := extractDisplayName node.displayName
  let structInfo := node.struct
  let size : ObjectSize :=
    { dataByteLength := structInfo.dataWordCount * 8
      pointerLength := structInfo.pointerCount }
  let fields := parseFields structInfo.fields
  let structCtor : StructCtor :=
    { displayName := displayName
      idHex := natHex node.id
      size := size
      prototype := buildProto fields }
  { id := node.id, displayName := displayName, size := size
    structCtor := structCtor }

/-- `SchemaLoader.loadDynamic`: result and post-state. A throw leaves the
`schemas` map untouched, so the error branch returns the input registry. -/
def loadDynamic (m : Registry) (node : Node) :
    Except LoaderError LoadedSchema × Registry :=
  if node.isStruct = false then
    (.error (.notAStruct (extractDisplayName node.displayName) node.id), m)
  else
    let schema := buildSchema node
    (.ok schema, assocSet m (natKey node.id) schema)

/-- `SchemaLoader.get`. -/
def get (m : Registry) (id : Nat) : Except LoaderError LoadedSchema :=
  match assocGet m (natKey id) with
  | some schema => .ok schema
  | none => .error (.schemaNotFound id)

/-- `SchemaLoader.getByName`: linear scan over the stored schemas in map
order, first exact display-name match, explicit absence otherwise. -/
def getByName (m : Registry) (name : String) : Option LoadedSchema :=
  match m with
  | [] => none
  | (_, schema) :: rest =>
    if schema.displayName = name then some schema else getByName rest name

/-- A sequence of `loadDynamic` calls (failing calls leave the registry
unchanged). -/
def runLoads (m : Registry) (nodes : List Node) : Registry :=
  List.foldl (fun acc n => (loadDynamic acc n).2) m nodes

/-! ### The wire-layout primitives used by the int32 round trip

Modelled from the spec (section 6): the external `utils` layer provides
fixed-width integer read/write at byte offsets into the struct's data
section. The data section is a byte store; `setInt32`/`getInt32` use the
two's-complement little-endian encoding of `DataView`. -/

/-- The data section as a byte store (reads are masked to a byte). -/
abbrev DataBuf : Type := Nat → Nat

/-- Modelled from the spec: `utils.setInt32` writes the four bytes of the
value's two's-complement bit pattern at the byte offset. -/
def setInt32 (byteOffset : Nat) (v : Int) (d : DataBuf) : DataBuf :=
  let u := (v % 4294967296).toNat
  fun j =>
    if j = byteOffset then u % 256
    else if j = byteOffset + 1 then u / 256 % 256
    else if j = byteOffset + 2 then u / 65536 % 256
    else if j = byteOffset + 3 then u / 16777216 % 256
    else d j

/-- Modelled from the spec: `utils.getInt32` reads four bytes at the byte
offset and sign-extends the 32-bit word. -/
def getInt32 (byteOffset : Nat) (d : DataBuf) : Int :=
  let u := d byteOffset % 256 + 256 * (d (byteOffset + 1) % 256) +
    65536 * (d (byteOffset + 2) % 256) + 16777216 * (d (byteOffset + 3) % 256)
  if u < 2147483648 then (u : Int) else (u : Int) - 4294967296

/-! ### JS values and the object projection -/

/-- The JS runtime values that can cross `toObject`: the distinguished
`undefined` and `null`, scalar results of the primitive getters, the
text/data/pointer views returned by the pointer layer (abstracted to
handles), and function values (which the projection must filter out). -/
inductive JSValue where
  | vUndefined
  | vNull
  | vBool (b : Bool)
  | vNum (n : Int)
  | vBigInt (n : Int)
  | vStr (s : String)
  | vData (bytes : List Nat)
  | vPointer (p : Nat)
  | vFun
deriving DecidableEq

/-- JS `typeof value === "function"`. -/
def JSValue.isFunction : JSValue → Bool
  | .vFun => true
  | _ => false

/-- Evaluation of a synthesized getter against the external wire layer,
represented by an oracle giving each `utils` call's outcome (a value, or a
thrown error). The `default`-branch closure returns `undefined` without
calling the wire layer. -/
def evalGet (read : GetAccessor → Except Unit JSValue) (g : GetAccessor) :
    Except Unit JSValue :=
  if g = .primitive .retUndefined then .ok .vUndefined else read g

/-- A decoded struct instance as `toObject` sees it: the prototype holding
its accessor properties, and the outcome of each accessor's underlying
wire-layer call on this instance's buffer region. -/
structure StructInst where
  proto : Prototype
  read : GetAccessor → Except Unit JSValue

/-- The loop body of `SchemaLoader.toObject` for one enumerable key: a
read that throws stores `null` under the key (the `catch` branch), a
function-typed or `undefined` value is skipped (`continue`), anything else
is stored under the key. -/
def toObjectStep (read : GetAccessor → Except Unit JSValue)
    (obj : List (String × JSValue)) (kd : String × PropertyDescriptor) :
    List (String × JSValue) :=
  match evalGet read kd.2.get with
  | .error _ => assocSet obj kd.1 JSValue.vNull
  | .ok v =>
    if v.isFunction || v == JSValue.vUndefined then obj
    else assocSet obj kd.1 v

/-- `SchemaLoader.toObject`: walk the prototype's enumerable keys in
order, applying the loop body to an initially empty object. The `schema`
argument is accepted and unused, as in the source. -/
def toObject (struct : StructInst) (schema : LoadedSchema) :
    List (String × JSValue) :=
  let _ := schema
  List.foldl (toObjectStep struct.read) [] struct.proto

/-- The per-key outcome of `toObject` (proof-side reference function). -/
def projectEntry (read : GetAccessor → Except Unit JSValue)
    (kd : String × PropertyDescriptor) : Option (String × JSValue) :=
  match evalGet read kd.2.get with
  | .error _ => some (kd.1, JSValue.vNull)
  | .ok v =>
    if v.isFunction || v == JSValue.vUndefined then none else some (kd.1, v)

/-- The semantic type labels handled by the primitive getter/setter
`switch`; a primitive-flagged descriptor with a label outside this list
falls into the `default` branch. -/
def handledPrimTypes : List String :=
  ["bool", "int8", "int16", "int32", "int64", "uint8", "uint16", "uint32",
   "uint64", "float32", "float64"]

/-! ## Helper lemmas: association lists -/

/-- Looking up the key just written returns the written value. -/
theorem assocGet_assocSet_self {α : Type} (m : List (String × α)) (k : String)
    (v : α) : assocGet (assocSet m k v) k = some v := by
  induction m with
  | nil => simp [assocSet, assocGet]
  | cons p rest ih =>
    obtain ⟨k', v'⟩ := p
    by_cases h : k' = k
    · subst h; simp [assocSet, assocGet]
    · simp [assocSet, assocGet, h, ih]

/-- Full characterization of lookup after an overwrite-or-append update. -/
theorem assocGet_assocSet {α : Type} (m : List (String × α)) (k k' : String)
    (v : α) :
    assocGet (assocSet m k v) k' = if k = k' then some v else assocGet m k' := by
  induction m with
  | nil =>
    by_cases h : k = k' <;> simp [assocSet, assocGet, h]
  | cons p rest ih =>
    obtain ⟨a, b⟩ := p
    by_cases ha : a = k
    · subst ha
      by_cases h : a = k' <;> simp [assocSet, assocGet, h, ih]
    · by_cases h : a = k'
      · subst h
        have : ¬ k = a := fun hk => ha hk.symm
        simp [assocSet, assocGet, ha, this]
      · simp [assocSet, assocGet, ha, h, ih]

/-! ## Helper lemmas: the decimal id key is injective -/

/-- With enough fuel, the digit expansion evaluates back to its input. -/
theorem ofDigits10_digitsRevB (fuel : Nat) :
    ∀ n : Nat, n ≤ fuel → ofDigits10 (digitsRevB 10 fuel n) = n := by
  induction fuel with
  | zero =>
    intro n hn
    have : n = 0 := by omega
    subst this
    simp [digitsRevB, ofDigits10]
  | succ f ih =>
    intro n hn
    match n with
    | 0 => simp [digitsRevB, ofDigits10]
    | m + 1 =>
      have hdiv : (m + 1) / 10 ≤ f := by omega
      show ofDigits10 ((m + 1) % 10 :: digitsRevB 10 f ((m + 1) / 10)) = m + 1
      rw [ofDigits10, ih _ hdiv]
      omega

/-- Every produced digit is below 10. -/
theorem digitsRevB_lt_ten (fuel : Nat) :
    ∀ n : Nat, ∀ d ∈ digitsRevB 10 fuel n, d < 10 := by
  induction fuel with
  | zero =>
    intro n d hd
    match n with
    | 0 => simp [digitsRevB] at hd
    | m + 1 => simp [digitsRevB] at hd
  | succ f ih =>
    intro n d hd
    match n with
    | 0 => simp [digitsRevB] at hd
    | m + 1 =>
      rw [show digitsRevB 10 (f + 1) (m + 1) =
            (m + 1) % 10 :: digitsRevB 10 f ((m + 1) / 10) from rfl] at hd
      rcases List.mem_cons.mp hd with h | h
      · subst h; omega
      · exact ih _ d h

/-- `charVal` inverts `Nat.digitChar` on decimal digits. -/
theorem charVal_digitChar (d : Nat) (h : d < 10) :
    charVal (Nat.digitChar d) = d := by
  interval_cases d <;> rfl

/-- Mapping render-then-parse over a digit list is the identity. -/
theorem map_charVal_digitChar (l : List Nat) (h : ∀ d ∈ l, d < 10) :
    l.map (fun d => charVal (Nat.digitChar d)) = l := by
  induction l with
  | nil => rfl
  | cons a t ih =>
    rw [List.map_cons, charVal_digitChar a (h a (by simp)),
      ih (fun d hd => h d (by simp [hd]))]

/-- `decodeKey` is a left inverse of the decimal rendering. -/
theorem decodeKey_natKey (n : Nat) : decodeKey (natKey n) = n := by
  by_cases h : n = 0
  · subst h; rfl
  · rw [natKey, if_neg h, decodeKey]
    show ofDigits10
      (((((digitsRevB 10 n n).map Nat.digitChar).reverse).reverse).map charVal) = n
    rw [List.reverse_reverse, List.map_map]
    rw [show charVal ∘ Nat.digitChar = fun d => charVal (Nat.digitChar d) from rfl]
    rw [map_charVal_digitChar _ (digitsRevB_lt_ten n n)]
    exact ofDigits10_digitsRevB n n le_rfl

/-- The registry's decimal key is injective on ids. -/
theorem natKey_inj {a b : Nat} (h : natKey a = natKey b) : a = b := by
  have ha := decodeKey_natKey a
  rw [h, decodeKey_natKey b] at ha
  exact ha.symm

/-! ## Helper lemmas: display-name extraction -/

/-- `takeWhile` never reads past a failing element, so an appended tail is
irrelevant once the front contains one. -/
theorem takeWhile_append_left {p : Char → Bool} (l1 l2 : List Char)
    (h : ∃ a ∈ l1, p a = false) :
    (l1 ++ l2).takeWhile p = l1.takeWhile p := by
  induction l1 with
  | nil => simp at h
  | cons a t ih =>
    by_cases hp : p a
    · obtain ⟨x, hx, hpx⟩ := h
      rcases List.mem_cons.mp hx with rfl | hxt
      · rw [hp] at hpx; cases hpx
      · rw [List.cons_append, List.takeWhile_cons, hp, List.takeWhile_cons, hp,
          ih ⟨x, hxt, hpx⟩]
    · rw [List.cons_append, List.takeWhile_cons, List.takeWhile_cons,
        Bool.not_eq_true] at *
      rw [hp]
      simp

/-- `takeWhile` passes over a wholly satisfying front. -/
theorem takeWhile_append_all {p : Char → Bool} (l1 l2 : List Char)
    (h : ∀ a ∈ l1, p a = true) :
    (l1 ++ l2).takeWhile p = l1 ++ l2.takeWhile p := by
  induction l1 with
  | nil => simp
  | cons a t ih =>
    rw [List.cons_append, List.takeWhile_cons, h a (by simp),
      ih (fun x hx => h x (by simp [hx])), List.cons_append]
    simp

/-- `takeWhile` keeps a wholly satisfying list. -/
theorem takeWhile_all {p : Char → Bool} (l : List Char)
    (h : ∀ a ∈ l, p a = true) : l.takeWhile p = l := by
  induction l with
  | nil => rfl
  | cons a t ih =>
    rw [List.takeWhile_cons, h a (by simp),
      ih (fun x hx => h x (by simp [hx]))]
    simp

/-- The last piece produced by the split loop is the text after the final
colon (the pending accumulator plus the rest, when no colon remains). -/
theorem splitColonAux_getLastD (cs : List Char) :
    ∀ (acc : List Char) (d : String),
      (splitColonAux cs acc).getLastD d =
        if ':' ∈ cs then
          String.mk ((cs.reverse.takeWhile (fun c => c != ':')).reverse)
        else String.mk (acc.reverse ++ cs) := by
  induction cs with
  | nil =>
    intro acc d
    simp [splitColonAux]
  | cons c t ih =>
    intro acc d
    by_cases hc : c = ':'
    · subst hc
      rw [show splitColonAux (':' :: t) acc =
            String.mk acc.reverse :: splitColonAux t [] from by
          rw [splitColonAux]; simp]
      rw [List.getLastD_cons, ih [] (String.mk acc.reverse)]
      by_cases ht : ':' ∈ t
      · rw [if_pos ht, if_pos (List.mem_cons_self _ _), List.reverse_cons,
          takeWhile_append_left _ _
            ⟨':', List.mem_reverse.mpr ht, by simp⟩]
      · rw [if_neg ht, if_pos (List.mem_cons_self _ _), List.reverse_cons,
          takeWhile_append_all _ _
            (fun a ha => by
              have : a ≠ ':' := fun h => ht (h ▸ List.mem_reverse.mp ha)
              simpa using this)]
        rw [show List.takeWhile (fun c => c != ':') [':'] = [] from by
          simp [List.takeWhile_cons]]
        simp
    · rw [show splitColonAux (c :: t) acc = splitColonAux t (c :: acc) from by
        rw [splitColonAux]; simp [hc]]
      rw [ih (c :: acc) d]
      by_cases ht : ':' ∈ t
      · rw [if_pos ht, if_pos (by simp [ht]), List.reverse_cons,
          takeWhile_append_left _ _
            ⟨':', List.mem_reverse.mpr ht, by simp⟩]
      · have hct : ':' ∉ c :: t := by
          intro hmem
          rcases List.mem_cons.mp hmem with h | h
          · exact hc h.symm
          · exact ht h
        rw [if_neg ht, if_neg hct, List.reverse_cons]
        simp

/-- The last split piece equals the spec-side "text after the final
colon". -/
theorem splitColon_getLastD (s : String) :
    (splitColon s).getLastD "" = afterLastColonSpec s := by
  rw [splitColon, afterLastColonSpec, splitColonAux_getLastD s.data [] ""]
  by_cases h : ':' ∈ s.data
  · rw [if_pos h]
  · rw [if_neg h,
      takeWhile_all s.data.reverse
        (fun a ha => by
          have : a ≠ ':' := fun hh => h (hh ▸ List.mem_reverse.mp ha)
          simpa using this),
      List.reverse_reverse]
    simp

/-- `extractDisplayName` keeps the text after the final colon when that
text is nonempty, and falls back to the unmodified full name otherwise. -/
theorem extractDisplayName_eq (s : String) :
    extractDisplayName s =
      if afterLastColonSpec s = "" then s else afterLastColonSpec s := by
  rw [extractDisplayName]
  simp only [splitColon_getLastD s]

/-! ## Helper lemmas: the registry across load sequences -/

/-- A successful load appends/overwrites exactly the node's key. -/
theorem loadDynamic_snd_of_isStruct (m : Registry) (node : Node)
    (h : node.isStruct = true) :
    (loadDynamic m node).2 = assocSet m (natKey node.id) (buildSchema node) := by
  simp [loadDynamic, h]

/-- Presence of an id after a load sequence: exactly the struct nodes of
the sequence (or what was present before) are present. -/
theorem assocGet_runLoads (nodes : List Node) :
    ∀ (m : Registry) (id : Nat),
      (assocGet (runLoads m nodes) (natKey id)).isSome =
        ((nodes.any fun n => n.isStruct && n.id == id) ||
          (assocGet m (natKey id)).isSome) := by
  induction nodes with
  | nil => intro m id; simp [runLoads]
  | cons n ns ih =>
    intro m id
    rw [show runLoads m (n :: ns) = runLoads (loadDynamic m n).2 ns from rfl, ih]
    by_cases hs : n.isStruct
    · rw [loadDynamic_snd_of_isStruct m n hs, assocGet_assocSet]
      by_cases hid : n.id = id
      · subst hid; simp [hs]
      · have hk : natKey n.id ≠ natKey id := fun hk => hid (natKey_inj hk)
        have hb : (n.id == id) = false := by simpa using hid
        rw [if_neg hk]
        simp [hs, hb]
    · have hs' : n.isStruct = false := by simpa using hs
      rw [show (loadDynamic m n).2 = m from by simp [loadDynamic, hs']]
      simp [hs']

/-! ## Claim theorems: the registry -/

def cColonNode : Node :=
  { id := 9, displayName := "abc:", isStruct := true,
    struct := { dataWordCount := 0, pointerCount := 0, fields := [] } }

def cFooNode : Node :=
  { id := 11, displayName := "pkg.capnp:Foo.Bar", isStruct := true,
    struct := { dataWordCount := 1, pointerCount := 0, fields := [] } }

/-- C1 (amended): for every struct node loaded via `loadDynamic`, a
subsequent `get` with the node's id returns the stored schema, whose
`displayName` is the text after the final colon of the node's fully
qualified display name when that text is nonempty, and the unmodified full
name when the final colon-delimited segment is empty. -/
theorem loadDynamic_get_displayName (m : Registry) (node : Node)
    (h : node.isStruct = true) :
    get (loadDynamic m node).2 node.id = .ok (buildSchema node) ∧
    (buildSchema node).displayName =
      (if afterLastColonSpec node.displayName = "" then node.displayName
       else afterLastColonSpec node.displayName) := by
  constructor
  · rw [loadDynamic_snd_of_isStruct m node h]
    simp [get, assocGet_assocSet_self]
  · exact extractDisplayName_eq node.displayName

/-- C1 counterexample: for the display name `"abc:"` the text after the
final colon is empty, yet the loaded schema's display name is the full
`"abc:"`, not the empty string the claim demands for every input string. -/
theorem displayName_trailing_colon_cex :
    (get (loadDynamic emptyRegistry cColonNode).2 cColonNode.id).toOption.map
        LoadedSchema.displayName = some "abc:" ∧
    afterLastColonSpec cColonNode.displayName = "" ∧ ("abc:" ≠ "") := by
  refine ⟨by decide, by decide, by decide⟩

/-- C1 witness: the amended theorem applied at a concrete struct node. -/
theorem loadDynamic_get_displayName_witness :
    get (loadDynamic emptyRegistry cFooNode).2 cFooNode.id =
        .ok (buildSchema cFooNode) ∧
    (buildSchema cFooNode).displayName =
      (if afterLastColonSpec cFooNode.displayName = "" then cFooNode.displayName
       else afterLastColonSpec cFooNode.displayName) :=
  loadDynamic_get_displayName emptyRegistry cFooNode rfl

/-- C2: loading two struct nodes with the same id leaves, for that id,
exactly the schema built from the second node: its display name, its size
and its accessor prototype are computed from the second node alone. -/
theorem second_load_wins (m : Registry) (n1 n2 : Node)
    (h1 : n1.isStruct = true) (h2 : n2.isStruct = true) (hid : n1.id = n2.id) :
    get (loadDynamic (loadDynamic m n1).2 n2).2 n2.id = .ok (buildSchema n2) ∧
    (buildSchema n2).displayName = extractDisplayName n2.displayName ∧
    (buildSchema n2).size =
      { dataByteLength := n2.struct.dataWordCount * 8
        pointerLength := n2.struct.pointerCount } ∧
    (buildSchema n2).structCtor.prototype =
      buildProto (parseFields n2.struct.fields) := by
  refine ⟨?_, rfl, rfl, rfl⟩
  rw [loadDynamic_snd_of_isStruct _ n2 h2]
  simp [get, assocGet_assocSet_self]

def cTInt32 : WireType :=
  { which := typeInt32, structTypeId := 0, listElemWhich := 0 }

def cTText : WireType :=
  { which := typeText, structTypeId := 0, listElemWhich := 0 }

def cFieldX : Field :=
  { name := "x", isSlot := true, slot := { offset := 0, type := cTInt32 } }

def cFieldY : Field :=
  { name := "y", isSlot := true, slot := { offset := 0, type := cTText } }

def cNodeA : Node :=
  { id := 5, displayName := "m.capnp:A", isStruct := true,
    struct := { dataWordCount := 1, pointerCount := 0, fields := [cFieldX] } }

def cNodeB : Node :=
  { id := 5, displayName := "m.capnp:B", isStruct := true,
    struct := { dataWordCount := 0, pointerCount := 1, fields := [cFieldY] } }

/-- C2 witness: two concrete loads sharing id 5; `get 5` yields the second
node's schema. -/
theorem second_load_wins_witness :
    get (loadDynamic (loadDynamic emptyRegistry cNodeA).2 cNodeB).2 cNodeB.id =
        .ok (buildSchema cNodeB) ∧
    (buildSchema cNodeB).displayName = extractDisplayName cNodeB.displayName ∧
    (buildSchema cNodeB).size =
      { dataByteLength := cNodeB.struct.dataWordCount * 8
        pointerLength := cNodeB.struct.pointerCount } ∧
    (buildSchema cNodeB).structCtor.prototype =
      buildProto (parseFields cNodeB.struct.fields) :=
  second_load_wins emptyRegistry cNodeA cNodeB rfl rfl rfl

/-- C3: loading a non-struct node fails with the not-a-struct error kind
and leaves the registry untouched, so every `get` and `getByName`
observes exactly the previously loaded schemas. -/
theorem loadDynamic_notAStruct (m : Registry) (node : Node)
    (h : node.isStruct = false) :
    (loadDynamic m node).1 =
        .error (.notAStruct (extractDisplayName node.displayName) node.id) ∧
    (loadDynamic m node).2 = m ∧
    (∀ id, get (loadDynamic m node).2 id = get m id) ∧
    (∀ name, getByName (loadDynamic m node).2 name = getByName m name) := by
  refine ⟨?_, ?_, ?_, ?_⟩ <;> simp [loadDynamic, h]

def cGroupNode : Node :=
  { id := 3, displayName := "m.capnp:G", isStruct := false,
    struct := { dataWordCount := 0, pointerCount := 0, fields := [] } }

/-- C3 witness: the theorem applied at a concrete non-struct node. -/
theorem loadDynamic_notAStruct_witness :
    (loadDynamic emptyRegistry cGroupNode).1 =
        .error (.notAStruct (extractDisplayName cGroupNode.displayName)
          cGroupNode.id) ∧
    (loadDynamic emptyRegistry cGroupNode).2 = emptyRegistry ∧
    (∀ id, get (loadDynamic emptyRegistry cGroupNode).2 id =
      get emptyRegistry id) ∧
    (∀ name, getByName (loadDynamic emptyRegistry cGroupNode).2 name =
      getByName emptyRegistry name) :=
  loadDynamic_notAStruct emptyRegistry cGroupNode rfl

/-- C4: starting from a fresh registry and any sequence of `loadDynamic`
calls, `get id` fails with the not-found error kind exactly when no struct
node with that id was ever loaded, and succeeds for every loaded id. -/
theorem get_fails_iff_never_loaded (nodes : List Node) (id : Nat) :
    ((nodes.any fun n => n.isStruct && n.id == id) = false →
      get (runLoads emptyRegistry nodes) id = .error (.schemaNotFound id)) ∧
    ((nodes.any fun n => n.isStruct && n.id == id) = true →
      ∃ s, get (runLoads emptyRegistry nodes) id = .ok s) := by
  have h := assocGet_runLoads nodes emptyRegistry id
  rw [show assocGet emptyRegistry (natKey id) = (none : Option LoadedSchema)
    from rfl] at h
  constructor
  · intro hf
    rw [hf] at h
    simp only [Option.isSome_none, Bool.or_false, Bool.false_or] at h
    cases hc : assocGet (runLoads emptyRegistry nodes) (natKey id) with
    | none => simp [get, hc]
    | some s => rw [hc] at h; simp at h
  · intro ht
    rw [ht] at h
    simp only [Option.isSome_none, Bool.or_false, Bool.true_or] at h
    obtain ⟨s, hs⟩ := Option.isSome_iff_exists.mp h
    exact ⟨s, by simp [get, hs]⟩

/-- C4 witness: on a freshly constructed registry, `get 42` fails with the
not-found error kind. -/
theorem get_fails_iff_never_loaded_witness :
    get (runLoads emptyRegistry []) 42 = .error (.schemaNotFound 42) :=
  (get_fails_iff_never_loaded [] 42).1 rfl

/-! ## Helper lemma: two's-complement int32 round trip -/

/-- Writing an in-range int32 and reading it back at the same byte offset
yields the value, for any prior buffer contents. -/
theorem getInt32_setInt32 (byteOffset : Nat) (v : Int) (d : DataBuf)
    (h1 : -2147483648 ≤ v) (h2 : v < 2147483648) :
    getInt32 byteOffset (setInt32 byteOffset v d) = v := by
  have e1 : byteOffset + 1 ≠ byteOffset := by omega
  have e2 : byteOffset + 2 ≠ byteOffset := by omega
  have e2' : byteOffset + 2 ≠ byteOffset + 1 := by omega
  have e3 : byteOffset + 3 ≠ byteOffset := by omega
  have e3' : byteOffset + 3 ≠ byteOffset + 1 := by omega
  have e3'' : byteOffset + 3 ≠ byteOffset + 2 := by omega
  unfold getInt32 setInt32
  simp only [e1, e2, e2', e3, e3', e3'', ite_true, ite_false, reduceIte]
  split <;> omega

/-! ## Claim theorem: primitive accessor offset arithmetic -/

/-- C5: every synthesized primitive accessor addresses the buffer at a
schema-level constant: a bool accessor uses the wire offset directly as a
bit index; every other primitive accessor uses byte offset = wire offset
times the type's byte width (1 for int8/uint8, 2 for int16/uint16, 4 for
int32/uint32/float32, 8 for int64/uint64/float64); and an int32 field at
wire offset `k` written with an in-range value at byte offset `k * 4`
reads back exactly that value. -/
theorem primitive_accessor_offsets (f : FieldInfo) :
    (f.type = "bool" → createPrimitiveGetter f = .getBit f.offset ∧
        createPrimitiveSetter f = .setBit f.offset) ∧
    (f.type = "int8" → createPrimitiveGetter f = .getInt8 (f.offset * 1) ∧
        createPrimitiveSetter f = .setInt8 (f.offset * 1)) ∧
    (f.type = "uint8" → createPrimitiveGetter f = .getUint8 (f.offset * 1) ∧
        createPrimitiveSetter f = .setUint8 (f.offset * 1)) ∧
    (f.type = "int16" → createPrimitiveGetter f = .getInt16 (f.offset * 2) ∧
        createPrimitiveSetter f = .setInt16 (f.offset * 2)) ∧
    (f.type = "uint16" → createPrimitiveGetter f = .getUint16 (f.offset * 2) ∧
        createPrimitiveSetter f = .setUint16 (f.offset * 2)) ∧
    (f.type = "int32" → createPrimitiveGetter f = .getInt32 (f.offset * 4) ∧
        createPrimitiveSetter f = .setInt32 (f.offset * 4)) ∧
    (f.type = "uint32" → createPrimitiveGetter f = .getUint32 (f.offset * 4) ∧
        createPrimitiveSetter f = .setUint32 (f.offset * 4)) ∧
    (f.type = "float32" → createPrimitiveGetter f = .getFloat32 (f.offset * 4) ∧
        createPrimitiveSetter f = .setFloat32 (f.offset * 4)) ∧
    (f.type = "int64" → createPrimitiveGetter f = .getInt64 (f.offset * 8) ∧
        createPrimitiveSetter f = .setInt64 (f.offset * 8)) ∧
    (f.type = "uint64" → createPrimitiveGetter f = .getUint64 (f.offset * 8) ∧
        createPrimitiveSetter f = .setUint64 (f.offset * 8)) ∧
    (f.type = "float64" → createPrimitiveGetter f = .getFloat64 (f.offset * 8) ∧
        createPrimitiveSetter f = .setFloat64 (f.offset * 8)) ∧
    (f.type = "int32" → ∀ (d : DataBuf) (v : Int), -2147483648 ≤ v →
        v < 2147483648 →
        getInt32 (f.offset * 4) (setInt32 (f.offset * 4) v d) = v) := by
  refine ⟨?_, ?_, ?_, ?_, ?_, ?_, ?_, ?_, ?_, ?_, ?_, ?_⟩ <;> intro h
  case refine_12 =>
    exact fun d v h1 h2 => getInt32_setInt32 (f.offset * 4) v d h1 h2
  all_goals
    constructor <;>
      simp [createPrimitiveGetter, createPrimitiveSetter, calculateByteOffset,
        typeSizes, h]

def cInt32Field : FieldInfo :=
  { name := "k", offset := 3, type := "int32", isPointer := false,
    isPrimitive := true, isText := false, isData := false, isList := false,
    isStruct := false, structTypeId := none, listElementType := none }

/-- C5 witness: a concrete int32 descriptor at wire offset 3 addresses
byte offset 12, and writing `-7` there reads back `-7`. -/
theorem primitive_accessor_offsets_witness :
    createPrimitiveGetter cInt32Field = .getInt32 (cInt32Field.offset * 4) ∧
    getInt32 12 (setInt32 12 (-7) (fun _ => 0)) = -7 := by
  refine ⟨((primitive_accessor_offsets cInt32Field).2.2.2.2.2.1 rfl).1, ?_⟩
  have h := (primitive_accessor_offsets cInt32Field).2.2.2.2.2.2.2.2.2.2.2 rfl
    (fun _ => 0) (-7) (by decide) (by decide)
  simpa using h

/-! ## Claim theorems: per-kind accessor synthesis -/

/-- C6: accessor synthesis per field kind — a text field gets a getter and
a setter at its pointer-slot index; a data field gets a getter only; a
list field and a struct field get only the raw-pointer getter; no setter
is synthesized for data, list, or struct fields. -/
theorem field_accessor_contract (fld : Field) (h : fld.isSlot = true) :
    (fld.slot.type.which = typeText →
        addFieldAccessors (slotFieldInfo fld) =
          { get := .text fld.slot.offset, set := some (.text fld.slot.offset),
            enumerable := true, configurable := true }) ∧
    (fld.slot.type.which = typeData →
        addFieldAccessors (slotFieldInfo fld) =
          { get := .data fld.slot.offset, set := none,
            enumerable := true, configurable := true }) ∧
    (fld.slot.type.which = typeList →
        addFieldAccessors (slotFieldInfo fld) =
          { get := .pointer fld.slot.offset, set := none,
            enumerable := true, configurable := true }) ∧
    (fld.slot.type.which = typeStruct →
        addFieldAccessors (slotFieldInfo fld) =
          { get := .pointer fld.slot.offset, set := none,
            enumerable := true, configurable := true }) := by
  refine ⟨?_, ?_, ?_, ?_⟩ <;> intro hw <;>
    simp [addFieldAccessors, slotFieldInfo, hw, isPrimitiveType, isPointerType,
      typeBool, typeInt8, typeInt16, typeInt32, typeInt64, typeUint8,
      typeUint16, typeUint32, typeUint64, typeFloat32, typeFloat64,
      typeText, typeData, typeList, typeStruct, typeAnyPointer]

/-- C6 witness: the contract applied to a concrete text field. -/
theorem field_accessor_contract_witness :
    addFieldAccessors (slotFieldInfo cFieldY) =
      { get := .text cFieldY.slot.offset,
        set := some (.text cFieldY.slot.offset),
        enumerable := true, configurable := true } :=
  (field_accessor_contract cFieldY rfl).1 rfl

/-- C7: the classifier is total, and every tag outside the closed
wire-type set maps to the label "unknown" with both facets false; a slot
field carrying such a tag receives only the raw-pointer fallback getter
and no setter. -/
theorem unknown_tag_classification (tag : Nat) (hk : tag ∉ knownTags)
    (fld : Field) (hs : fld.isSlot = true) (hw : fld.slot.type.which = tag) :
    typeToString tag = "unknown" ∧ isPointerType tag = false ∧
    isPrimitiveType tag = false ∧
    (addFieldAccessors (slotFieldInfo fld)).get = .pointer fld.slot.offset ∧
    (addFieldAccessors (slotFieldInfo fld)).set = none := by
  simp only [knownTags, typeVoid, typeBool, typeInt8, typeInt16, typeInt32,
    typeInt64, typeUint8, typeUint16, typeUint32, typeUint64, typeFloat32,
    typeFloat64, typeText, typeData, typeList, typeEnum, typeStruct,
    typeInterface, typeAnyPointer, List.mem_cons, List.not_mem_nil, or_false,
    not_or] at hk
  obtain ⟨h0, h1, h2, h3, h4, h5, h6, h7, h8, h9, h10, h11, h12, h13, h14,
    h15, h16, h17, h18⟩ := hk
  refine ⟨?_, ?_, ?_, ?_, ?_⟩ <;>
    simp [typeToString, isPointerType, isPrimitiveType, addFieldAccessors,
      slotFieldInfo, hw, typeVoid, typeBool, typeInt8, typeInt16, typeInt32,
      typeInt64, typeUint8, typeUint16, typeUint32, typeUint64, typeFloat32,
      typeFloat64, typeText, typeData, typeList, typeEnum, typeStruct,
      typeInterface, typeAnyPointer, h0, h1, h2, h3, h4, h5, h6, h7, h8, h9,
      h10, h11, h12, h13, h14, h15, h16, h17, h18]

def cTUnknown : WireType := { which := 99, structTypeId := 0, listElemWhich := 0 }

def cFieldU : Field :=
  { name := "u", isSlot := true, slot := { offset := 2, type := cTUnknown } }

/-- C7 witness: the unknown tag 99 on a concrete slot field. -/
theorem unknown_tag_classification_witness :
    typeToString 99 = "unknown" ∧ isPointerType 99 = false ∧
    isPrimitiveType 99 = false ∧
    (addFieldAccessors (slotFieldInfo cFieldU)).get =
      .pointer cFieldU.slot.offset ∧
    (addFieldAccessors (slotFieldInfo cFieldU)).set = none :=
  unknown_tag_classification 99 (by decide) cFieldU rfl rfl

/-- C8: field extraction keeps exactly the slot fields, in declaration
order with duplicates preserved (it equals mapping the descriptor builder
over the slot-filtered list), records the nested struct type id for struct
fields and the classified element type for list fields. -/
theorem parseFields_contract (fieldsList : List Field) :
    parseFields fieldsList =
      (fieldsList.filter (fun f => f.isSlot)).map slotFieldInfo ∧
    (∀ f ∈ fieldsList, f.isSlot = true → f.slot.type.which = typeStruct →
        (slotFieldInfo f).structTypeId = some f.slot.type.structTypeId) ∧
    (∀ f ∈ fieldsList, f.isSlot = true → f.slot.type.which = typeList →
        (slotFieldInfo f).listElementType =
          some (typeToString f.slot.type.listElemWhich)) := by
  refine ⟨?_, ?_, ?_⟩
  · induction fieldsList with
    | nil => rfl
    | cons a t ih =>
      by_cases ha : a.isSlot
      · have hpa : parseField a = some (slotFieldInfo a) := by
          simp [parseField, ha]
        rw [parseFields, List.filterMap_cons, hpa,
          List.filter_cons_of_pos ha, List.map_cons]
        rw [show List.filterMap parseField t = parseFields t from rfl, ih]
      · have hpa : parseField a = none := by simp [parseField, ha]
        rw [parseFields, List.filterMap_cons, hpa,
          List.filter_cons_of_neg (by simpa using ha)]
        rw [show List.filterMap parseField t = parseFields t from rfl, ih]
  · intro f hf hs hw
    simp [slotFieldInfo, hw]
  · intro f hf hs hw
    simp [slotFieldInfo, hw, typeList, typeStruct]

def cTStructRef : WireType :=
  { which := typeStruct, structTypeId := 77, listElemWhich := 0 }

def cFieldS : Field :=
  { name := "s", isSlot := true, slot := { offset := 1, type := cTStructRef } }

def cTListI32 : WireType :=
  { which := typeList, structTypeId := 0, listElemWhich := typeInt32 }

def cFieldL : Field :=
  { name := "l", isSlot := true, slot := { offset := 2, type := cTListI32 } }

def cFieldG : Field :=
  { name := "g", isSlot := false, slot := { offset := 0, type := cTInt32 } }

/-- C8 witness: a concrete field list with a struct field, a skipped
non-slot field and a list field. -/
theorem parseFields_contract_witness :
    parseFields [cFieldS, cFieldG, cFieldL] =
      (([cFieldS, cFieldG, cFieldL]).filter (fun f => f.isSlot)).map
        slotFieldInfo ∧
    (slotFieldInfo cFieldS).structTypeId =
      some cFieldS.slot.type.structTypeId ∧
    (slotFieldInfo cFieldL).listElementType =
      some (typeToString cFieldL.slot.type.listElemWhich) :=
  ⟨(parseFields_contract [cFieldS, cFieldG, cFieldL]).1,
    (parseFields_contract [cFieldS, cFieldG, cFieldL]).2.1 cFieldS
      (by decide) rfl rfl,
    (parseFields_contract [cFieldS, cFieldG, cFieldL]).2.2 cFieldL
      (by decide) rfl rfl⟩

/-! ## Helper lemmas: prototypes and the object projection -/

/-- Setting a fresh key appends. -/
theorem assocSet_of_not_mem {α : Type} (m : List (String × α)) (k : String)
    (v : α) (h : k ∉ m.map Prod.fst) : assocSet m k v = m ++ [(k, v)] := by
  induction m with
  | nil => rfl
  | cons p rest ih =>
    obtain ⟨a, b⟩ := p
    simp only [List.map_cons, List.mem_cons, not_or] at h
    rw [show assocSet ((a, b) :: rest) k v =
          if a = k then (k, v) :: rest else (a, b) :: assocSet rest k v
        from rfl,
      if_neg (fun e => h.1 e.symm), ih h.2, List.cons_append]

/-- The key list after an overwrite-or-append update. -/
theorem assocSet_keys {α : Type} (m : List (String × α)) (k : String) (v : α) :
    (assocSet m k v).map Prod.fst =
      if k ∈ m.map Prod.fst then m.map Prod.fst
      else m.map Prod.fst ++ [k] := by
  induction m with
  | nil => simp [assocSet]
  | cons p rest ih =>
    obtain ⟨a, b⟩ := p
    by_cases hak : a = k
    · subst hak; simp [assocSet]
    · rw [show assocSet ((a, b) :: rest) k v =
            if a = k then (k, v) :: rest else (a, b) :: assocSet rest k v
          from rfl,
        if_neg hak]
      have hka : ¬ k = a := fun e => hak e.symm
      by_cases hk : k ∈ rest.map Prod.fst <;>
        simp [ih, hk, hka]

/-- Updates keep the key list duplicate-free. -/
theorem assocSet_keys_nodup {α : Type} (m : List (String × α)) (k : String)
    (v : α) (h : (m.map Prod.fst).Nodup) :
    ((assocSet m k v).map Prod.fst).Nodup := by
  rw [assocSet_keys]
  by_cases hk : k ∈ m.map Prod.fst
  · simpa [hk] using h
  · rw [if_neg hk, List.nodup_append]
    refine ⟨h, List.nodup_singleton k, ?_⟩
    intro a ha hb
    rw [List.mem_singleton] at hb
    subst hb
    exact hk ha

/-- The accessor-installation loop keeps prototype keys duplicate-free. -/
theorem buildProto_foldl_keys_nodup (fields : List FieldInfo) :
    ∀ (init : Prototype), (init.map Prod.fst).Nodup →
      ((List.foldl
          (fun proto f => assocSet proto f.name (addFieldAccessors f))
          init fields).map Prod.fst).Nodup := by
  induction fields with
  | nil => intro init h; simpa using h
  | cons a t ih => intro init h; exact ih _ (assocSet_keys_nodup _ _ _ h)

/-- A synthesized prototype never holds two properties under one name. -/
theorem buildProto_keys_nodup (fields : List FieldInfo) :
    ((buildProto fields).map Prod.fst).Nodup :=
  buildProto_foldl_keys_nodup fields [] (by simp)

/-- A produced projection entry keeps the property's key. -/
theorem projectEntry_fst (read : GetAccessor → Except Unit JSValue)
    (kd : String × PropertyDescriptor) (p : String × JSValue)
    (h : projectEntry read kd = some p) : p.1 = kd.1 := by
  rw [projectEntry] at h
  cases he : evalGet read kd.2.get with
  | error e =>
    rw [he] at h
    simp only [Option.some.injEq] at h
    rw [← h]
  | ok v =>
    rw [he] at h
    by_cases hv : v.isFunction || v == JSValue.vUndefined
    · simp [hv] at h
    · simp only [hv, Bool.false_eq_true, if_false, Option.some.injEq] at h
      rw [← h]

/-- On a skipped key, the projection loop body returns the object
unchanged. -/
theorem toObjectStep_none (read : GetAccessor → Except Unit JSValue)
    (obj : List (String × JSValue)) (kd : String × PropertyDescriptor)
    (hp : projectEntry read kd = none) : toObjectStep read obj kd = obj := by
  rw [toObjectStep]
  cases he : evalGet read kd.2.get with
  | error e => rw [projectEntry, he] at hp; simp at hp
  | ok v =>
    rw [projectEntry, he] at hp
    by_cases hv : v.isFunction || v == JSValue.vUndefined
    · show (if v.isFunction || v == JSValue.vUndefined then obj
        else assocSet obj kd.1 v) = obj
      simp [hv]
    · simp [hv] at hp

/-- On a kept key, the projection loop body writes the produced entry. -/
theorem toObjectStep_some (read : GetAccessor → Except Unit JSValue)
    (obj : List (String × JSValue)) (kd : String × PropertyDescriptor)
    (p : String × JSValue) (hp : projectEntry read kd = some p) :
    toObjectStep read obj kd = assocSet obj p.1 p.2 := by
  rw [toObjectStep]
  cases he : evalGet read kd.2.get with
  | error e =>
    rw [projectEntry, he] at hp
    simp only [Option.some.injEq] at hp
    rw [← hp]
  | ok v =>
    rw [projectEntry, he] at hp
    by_cases hv : v.isFunction || v == JSValue.vUndefined
    · simp [hv] at hp
    · simp only [hv, Bool.false_eq_true, if_false, Option.some.injEq] at hp
      rw [← hp]
      show (if v.isFunction || v == JSValue.vUndefined then obj
        else assocSet obj kd.1 v) = assocSet obj kd.1 v
      simp [hv]

/-- The projection loop, over a duplicate-free prototype and an
accumulator with disjoint keys, appends exactly the per-key outcomes. -/
theorem toObject_foldl (read : GetAccessor → Except Unit JSValue)
    (proto : Prototype) :
    ∀ (obj : List (String × JSValue)),
      (∀ k ∈ proto.map Prod.fst, k ∉ obj.map Prod.fst) →
      (proto.map Prod.fst).Nodup →
      List.foldl (toObjectStep read) obj proto =
        obj ++ proto.filterMap (projectEntry read) := by
  induction proto with
  | nil => intro obj _ _; simp
  | cons kd rest ih =>
    intro obj hdisj hnd
    have hk : kd.1 ∉ obj.map Prod.fst := hdisj kd.1 (by simp)
    have hnd' : (rest.map Prod.fst).Nodup := by
      rw [List.map_cons, List.nodup_cons] at hnd
      exact hnd.2
    have hkd1 : kd.1 ∉ rest.map Prod.fst := by
      rw [List.map_cons, List.nodup_cons] at hnd
      exact hnd.1
    rw [List.foldl_cons]
    cases hp : projectEntry read kd with
    | none =>
      rw [toObjectStep_none read obj kd hp,
        List.filterMap_cons_none hp,
        ih obj (fun k hkr => hdisj k (by simp [hkr])) hnd']
    | some p =>
      have hp1 : p.1 = kd.1 := projectEntry_fst read kd p hp
      have hdisj' : ∀ k ∈ rest.map Prod.fst,
          k ∉ (obj ++ [p]).map Prod.fst := by
        intro k hkr
        rw [List.map_append, List.mem_append]
        rintro (hko | hkp)
        · exact hdisj k (by simp [hkr]) hko
        · simp only [List.map_cons, List.map_nil, List.mem_singleton] at hkp
          rw [hp1] at hkp
          subst hkp
          exact hkd1 hkr
      rw [toObjectStep_some read obj kd p hp,
        assocSet_of_not_mem obj p.1 p.2 (hp1 ▸ hk),
        List.filterMap_cons_some hp,
        ih (obj ++ [p]) hdisj' hnd',
        List.append_assoc, List.singleton_append]

/-- `toObject` over a synthesized prototype is the per-key outcome list. -/
theorem toObject_eq_filterMap (read : GetAccessor → Except Unit JSValue)
    (fields : List FieldInfo) (schema : LoadedSchema) :
    toObject ⟨buildProto fields, read⟩ schema =
      (buildProto fields).filterMap (projectEntry read) := by
  show List.foldl _ [] (buildProto fields) = _
  rw [toObject_foldl read (buildProto fields) [] (by simp)
    (buildProto_keys_nodup fields)]
  simp

/-! ## Claim theorems: the object projection -/

/-- C9: over any synthesized prototype and any outcome of the underlying
wire-layer reads, `toObject` never includes a function-valued entry; a
field whose read throws appears as an explicit `null`, and every other
field with a kept value still appears — a single failure never aborts the
projection. -/
theorem toObject_projection (read : GetAccessor → Except Unit JSValue)
    (fields : List FieldInfo) (schema : LoadedSchema) :
    (∀ kv ∈ toObject ⟨buildProto fields, read⟩ schema,
        kv.2.isFunction = false) ∧
    (∀ kd ∈ buildProto fields, evalGet read kd.2.get = .error () →
        (kd.1, JSValue.vNull) ∈ toObject ⟨buildProto fields, read⟩ schema) ∧
    (∀ kd ∈ buildProto fields, ∀ v, evalGet read kd.2.get = .ok v →
        v.isFunction = false → v ≠ JSValue.vUndefined →
        (kd.1, v) ∈ toObject ⟨buildProto fields, read⟩ schema) := by
  rw [toObject_eq_filterMap]
  refine ⟨?_, ?_, ?_⟩
  · intro kv hkv
    rcases List.mem_filterMap.mp hkv with ⟨kd, hkd, hp⟩
    rw [projectEntry] at hp
    cases he : evalGet read kd.2.get with
    | error e =>
      rw [he] at hp
      simp only [Option.some.injEq] at hp
      rw [← hp]
      rfl
    | ok v =>
      rw [he] at hp
      by_cases hv : v.isFunction || v == JSValue.vUndefined
      · simp [hv] at hp
      · simp only [hv, Bool.false_eq_true, if_false, Option.some.injEq] at hp
        cases hfun : v.isFunction with
        | false => rw [← hp]; exact hfun
        | true => rw [hfun] at hv; simp at hv
  · intro kd hkd he
    refine List.mem_filterMap.mpr ⟨kd, hkd, ?_⟩
    rw [projectEntry, he]
  · intro kd hkd v he hvf hvu
    refine List.mem_filterMap.mpr ⟨kd, hkd, ?_⟩
    rw [projectEntry, he]
    have hvu' : (v == JSValue.vUndefined) = false := by
      simpa using hvu
    simp [hvf, hvu']

def cErrRead : GetAccessor → Except Unit JSValue :=
  fun g => if g = .text 0 then .error () else .ok (.vNum 7)

def cFieldA : Field :=
  { name := "a", isSlot := true, slot := { offset := 0, type := cTText } }

def cProjFields : List FieldInfo := parseFields [cFieldA, cFieldX]

/-- C9 witness: with a concrete prototype of a text field whose read
throws and an int32 field whose read yields 7, the projection records
`null` for the first and `7` for the second. -/
theorem toObject_projection_witness :
    ("a", JSValue.vNull) ∈
      toObject ⟨buildProto cProjFields, cErrRead⟩ (buildSchema cNodeA) ∧
    ("x", JSValue.vNum 7) ∈
      toObject ⟨buildProto cProjFields, cErrRead⟩ (buildSchema cNodeA) :=
  ⟨(toObject_projection cErrRead cProjFields (buildSchema cNodeA)).2.1
      ("a", addFieldAccessors (slotFieldInfo cFieldA))
      (by decide) rfl,
   (toObject_projection cErrRead cProjFields (buildSchema cNodeA)).2.2
      ("x", addFieldAccessors (slotFieldInfo cFieldX))
      (by decide) (JSValue.vNum 7) rfl rfl (by decide)⟩

/-- C10 (amended): `toObject` silently omits — with no key at all — every
field whose getter evaluates to `undefined`; among synthesized accessors
exactly the primitive-flagged descriptors whose type label is outside the
handled primitive table receive that `undefined`-returning getter, so the
projected object can have fewer entries than the schema has slot fields
even without a read failure. Void fields are not of that kind: they
receive the raw-pointer fallback getter, not the `undefined` getter. -/
theorem undefined_getter_omitted :
    (∀ (read : GetAccessor → Except Unit JSValue) (fields : List FieldInfo)
        (schema : LoadedSchema) (key : String) (d : PropertyDescriptor),
        (key, d) ∈ buildProto fields →
        evalGet read d.get = .ok .vUndefined →
        ∀ v, (key, v) ∉ toObject ⟨buildProto fields, read⟩ schema) ∧
    (∀ f : FieldInfo, f.isPrimitive = true → f.type ∉ handledPrimTypes →
        createPrimitiveGetter f = .retUndefined) ∧
    (∀ read : GetAccessor → Except Unit JSValue,
        evalGet read (.primitive .retUndefined) = .ok .vUndefined) ∧
    (∀ fld : Field, fld.isSlot = true → fld.slot.type.which = typeVoid →
        (addFieldAccessors (slotFieldInfo fld)).get =
          .pointer fld.slot.offset ∧
        (addFieldAccessors (slotFieldInfo fld)).get ≠
          .primitive GetterDesc.retUndefined) := by
  refine ⟨?_, ?_, ?_, ?_⟩
  · intro read fields schema key d hkd he v hv
    rw [toObject_eq_filterMap] at hv
    rcases List.mem_filterMap.mp hv with ⟨kd, hkdm, hp⟩
    have hfst : kd.1 = key := by
      have h := projectEntry_fst read kd (key, v) hp
      simpa using h.symm
    have hkdq : kd = (key, d) := by
      have hinj := List.inj_on_of_nodup_map (buildProto_keys_nodup fields)
      exact hinj hkdm hkd (by simpa using hfst)
    rw [hkdq, projectEntry, he] at hp
    simp at hp
  · intro f hp hm
    simp only [handledPrimTypes, List.mem_cons, List.not_mem_nil, or_false,
      not_or] at hm
    obtain ⟨n1, n2, n3, n4, n5, n6, n7, n8, n9, n10, n11⟩ := hm
    simp [createPrimitiveGetter, n1, n2, n3, n4, n5, n6, n7, n8, n9, n10, n11]
  · intro read
    simp [evalGet]
  · intro fld hs hw
    constructor <;>
      simp [addFieldAccessors, slotFieldInfo, hw, isPrimitiveType,
        isPointerType, typeVoid, typeBool, typeInt8, typeInt16, typeInt32,
        typeInt64, typeUint8, typeUint16, typeUint32, typeUint64,
        typeFloat32, typeFloat64, typeText, typeData, typeList, typeStruct,
        typeAnyPointer]

def cTVoid : WireType := { which := typeVoid, structTypeId := 0, listElemWhich := 0 }

def cFieldV : Field :=
  { name := "v", isSlot := true, slot := { offset := 0, type := cTVoid } }

def cVoidNode : Node :=
  { id := 21, displayName := "m.capnp:V", isStruct := true,
    struct := { dataWordCount := 1, pointerCount := 0, fields := [cFieldV] } }

def cPtrRead : GetAccessor → Except Unit JSValue :=
  fun g => let _ := g; .ok (.vPointer 7)

/-- C10 counterexample: a void field's synthesized getter is the
raw-pointer fallback, not the `undefined`-returning getter, and with the
pointer layer returning a pointer view the void field appears in the
projection under its key — the claim's "no key at all" fails for void
fields. -/
theorem void_field_projected_cex :
    (addFieldAccessors (slotFieldInfo cFieldV)).get = .pointer 0 ∧
    (addFieldAccessors (slotFieldInfo cFieldV)).get ≠
      .primitive GetterDesc.retUndefined ∧
    ("v", JSValue.vPointer 7) ∈
      toObject ⟨(buildSchema cVoidNode).structCtor.prototype, cPtrRead⟩
        (buildSchema cVoidNode) := by
  refine ⟨by decide, by decide, by decide⟩

def cWeirdField : FieldInfo :=
  { name := "w", offset := 0, type := "weird", isPointer := false,
    isPrimitive := true, isText := false, isData := false, isList := false,
    isStruct := false, structTypeId := none, listElementType := none }

/-- C10 witness: a primitive-flagged descriptor with the unhandled label
"weird" gets the `undefined` getter, whose evaluation is `undefined`, and
the corresponding key is absent from the concrete projection. -/
theorem undefined_getter_omitted_witness :
    createPrimitiveGetter cWeirdField = .retUndefined ∧
    evalGet cPtrRead (.primitive .retUndefined) = .ok .vUndefined ∧
    ("w", JSValue.vUndefined) ∉
      toObject ⟨buildProto [cWeirdField], cPtrRead⟩ (buildSchema cVoidNode) :=
  ⟨undefined_getter_omitted.2.1 cWeirdField rfl (by decide),
   undefined_getter_omitted.2.2.1 cPtrRead,
   undefined_getter_omitted.1 cPtrRead [cWeirdField] (buildSchema cVoidNode)
     "w" (addFieldAccessors cWeirdField) (by decide) rfl
     JSValue.vUndefined⟩

end SchemaLoader
